import Mathlib

/-!
Shallow embedding of `app.py` (CensusAPIBaker): a Streamlit dashboard that
resolves a geography clause, selects ACS variable codes from cached group
metadata, fetches data tables over HTTP, and assembles them into one table.

Pure string/list logic is translated directly; the stateful parts
(`URL_HITS`, the `lru_cache` on `fetch`, the `@cache` on `get_labels`, and
the network) are embedded as explicit state passing over `NetState`, with
the network modelled by oracles `String → FetchOutcome` /
`String → MetaOutcome` and an actual-HTTP-request trace recorded in
`requestLog`.
-/

namespace CensusAPIBaker

/-! ### Constants and pure helpers (app.py lines 11-47, 66-84) -/

/-- Constant `API_KEY` from app.py line 11. -/
def API_KEY : String := "f6ba77c8a37e5c068c2d7a0020f3b56899318771"

/-- Constant `YEAR` from app.py line 12. -/
def YEAR : Nat := 2023

/-- Constant `STATE` (Washington) from app.py line 13. -/
def STATE : String := "53"

/-- Constant `PIERCE` (Pierce County) from app.py line 14. -/
def PIERCE : String := "053"

/-- Dict `BASE_VARS` from app.py lines 17-27: indicator name ↦ (variable_code, dataset). -/
def BASE_VARS : List (String × String × String) :=
  [ ("HS diploma 25+ (%)",             ("DP02_0062PE",    "profile")),
    ("Disability (%)",                 ("S1810_C02_001E", "subject")),
    ("Speak English < very well (%)",  ("DP02_0110PE",    "profile")),
    ("Poverty <100% FPL (%)",          ("S1701_C03_001E", "subject")),
    ("Median household income ($)",    ("S1901_C01_012E", "subject")),
    ("Housing cost ≥30% income (%)",   ("DP04_0138PE",    "profile")),
    ("Unemployment rate 16+ (%)",      ("S2301_C04_001E", "subject")),
    ("Households with no vehicle (%)", ("DP04_0058PE",    "profile")),
    ("Insurance coverage (%)",         ("S2701_C03_001E", "subject")) ]

/-- Dict `DETAILED` from app.py lines 31-36: indicator ↦ (group_id, label fragment, universe). -/
def DETAILED : List (String × String × String × String) :=
  [ ("Disability (%)",           ("S1810", ("With a disability",           "civilian"))),
    ("Poverty <100% FPL (%)",    ("S1701", ("Below poverty level",         "population"))),
    ("Unemployment rate 16+ (%)",("S2301", ("Unemployment rate",           "population"))),
    ("Insurance coverage (%)",   ("S2701", ("No health insurance coverage","civilian"))) ]

/-- First-match association lookup with decidable string keys; models Python
dict indexing on the (duplicate-free) dicts of app.py. -/
def alookup {β : Type} : List (String × β) → String → Option β
  | [], _ => none
  | kv :: rest, k => if kv.1 = k then some kv.2 else alookup rest k

/-- Character-list version of "starts with": `clStarts p l` is true iff `p`
is an initial segment of `l`. -/
def clStarts : List Char → List Char → Bool
  | [], _ => true
  | _ :: _, [] => false
  | p :: ps, c :: cs => p = c && clStarts ps cs

/-- Character-list version of substring occurrence: `clContains pat l` is
true iff `pat` occurs contiguously somewhere in `l`. -/
def clContains (pat : List Char) : List Char → Bool
  | [] => clStarts pat []
  | c :: cs => clStarts pat (c :: cs) || clContains pat cs

/-- Models Python's substring test `pat in s` (`in` on str): true iff `pat`
occurs in `s`; the empty pattern is contained in every string. -/
def strContains (s pat : String) : Bool :=
  clContains pat.data s.data

/-- Models Python's `s.endswith(suffix)`: the reversed suffix is an initial
segment of the reversed string. -/
def strEndsWith (s suffix : String) : Bool :=
  clStarts suffix.data.reverse s.data.reverse

/-- Models Python's `s.replace(" ", "")` from app.py line 46: removes every
space character (and only spaces — no other whitespace). -/
def removeSpaces (s : String) : String :=
  String.mk (s.data.filter (fun c => c ≠ ' '))

/-- Function `geo_clause` from app.py lines 41-47.  The Python function reads
`st.session_state["zcta_list"]`; that session value is passed here as the
explicit argument `zcta_list`.  Returns `none` for Python's `None`. -/
def geo_clause (level : String) (zcta_list : String) : Option String :=
  if level = "County (Pierce)" then
    some ("for=county:" ++ PIERCE ++ "&in=state:" ++ STATE)
  else if level = "Tract (Pierce)" then
    some ("for=tract:*&in=state:" ++ STATE ++ "%20county:" ++ PIERCE)
  else
    let zips := removeSpaces zcta_list
    if zips = "" then none
    else some ("for=zip%20code%20tabulation%20area:" ++ zips)

/-- The axis filter of app.py lines 76-79: a label is kept when a requested
breakdown's marker occurs in it.  The Python code sets `keep` by a chain of
guarded assignments; membership in the result depends only on the
disjunction embedded here. -/
def axis_keep (want_age want_sex want_race : Bool) (lab : String) : Bool :=
  (want_age && strContains lab "!!AGE!!") ||
  (want_sex && strContains lab "!!SEX!!") ||
  (want_race && (strContains lab "!!RACE" || strContains lab "!!ETHNICITY"))

/-- The loop body of `select_vars` (app.py lines 69-81): variable codes that
end in "E", whose label contains the measure fragment, and that pass the
axis filter, in metadata order.  `labels` is the metadata mapping as an
insertion-ordered association list (Python dict). -/
def matched_vars (labels : List (String × String)) (measure_fragment : String)
    (want_age want_sex want_race : Bool) : List String :=
  (labels.filter (fun vl =>
      strEndsWith vl.1 "E" && strContains vl.2 measure_fragment &&
      axis_keep want_age want_sex want_race vl.2)).map Prod.fst

/-- Function `select_vars` from app.py lines 66-84, with the metadata mapping (the
result of `get_labels group_id`) passed explicitly.  Line 84:
`return out or [f"{group_id}_001E"]`. -/
def select_vars (labels : List (String × String)) (group_id measure_fragment : String)
    (want_age want_sex want_race : Bool) : List String :=
  let out := matched_vars labels measure_fragment want_age want_sex want_race
  if out.isEmpty then [group_id ++ "_001E"] else out

/-! ### Tables and the duplicate-column drop (app.py lines 55-56, 143-144) -/

/-- A data table, column-oriented: an ordered list of (column name, column
values).  Rows of a pandas DataFrame are positional, so a column is just its
list of cell strings. -/
abbrev Table := List (String × List String)

/-- Operation `df.loc[:, ~df.columns.duplicated()]` (app.py lines 56 and 143-144):
keep each column whose name has not already appeared to its left.  `seen`
accumulates the names already kept. -/
def keepFirstCols (seen : List String) : Table → Table
  | [] => []
  | c :: rest =>
    if c.1 ∈ seen then keepFirstCols seen rest
    else c :: keepFirstCols (c.1 :: seen) rest

/-- Drop duplicate-named columns, keeping the first occurrence. -/
def dedupCols (t : Table) : Table := keepFirstCols [] t

/-- Operation `pd.concat(frames, axis=1)` followed by the duplicate-column drop of
app.py lines 143-144: horizontal concatenation is concatenation of the
column lists (row alignment is positional). -/
def assemble (frames : List Table) : Table := dedupCols frames.flatten

/-! ### HTTP model, caches, and the stateful pipeline (app.py lines 38, 50-63, 87-150) -/

/-- An HTTP request as issued by the program: its URL and the `timeout=`
argument passed to `requests.get` (`none` when no timeout argument is
passed, as in app.py line 62). -/
structure Request where
  url : String
  timeout : Option Nat
deriving DecidableEq

/-- Outcome of a data-pull HTTP request, as seen by `fetch` (app.py 50-56):
a transport-level failure (an exception inside `requests.get`), or a
response with an HTTP status code and — when the body parsed as JSON — the
array-of-arrays payload. -/
inductive FetchOutcome where
  | netError : FetchOutcome
  | resp (status : Nat) (rows : Option (List (List String))) : FetchOutcome

/-- Group-metadata endpoint response (app.py 59-63): HTTP status plus, when
the body parsed as a JSON object carrying a `variables` object (`varsObj`
here), that object's entries in order, each with its optional `label`
field. -/
structure MetaResp where
  status : Nat
  varsObj : Option (List (String × Option String))

/-- Outcome of a group-metadata HTTP request. -/
inductive MetaOutcome where
  | netError : MetaOutcome
  | resp (r : MetaResp) : MetaOutcome

/-- Ways `get_labels` can raise: transport failure, body unparseable or
without a `variables` object, or a variable entry without a `label`. -/
inductive MetaErr where
  | network : MetaErr
  | badBody : MetaErr
  | missingLabel : MetaErr
deriving DecidableEq

/-- Errors that abort a run. -/
inductive RunErr where
  | validation : RunErr
  | fetchFailed : RunErr
  | metaFailed (e : MetaErr) : RunErr
  | keyMissing : RunErr
  | emptyConcat : RunErr
deriving DecidableEq

/-- The process-lifetime mutable state of app.py: the run-scoped `URL_HITS`
list (line 38), the `lru_cache` on `fetch` (line 50, most-recent-first),
the `@cache` on `get_labels` (line 59), and a ghost trace of every actual
HTTP request issued. -/
structure NetState where
  urlHits : List String
  fetchCache : List (String × Table)
  labelsCache : List (String × List (String × String))
  requestLog : List Request

/-- Fresh process state. -/
def initState : NetState := ⟨[], [], [], []⟩

/-- The metadata URL of app.py line 61. -/
def metaUrl (group_id : String) : String :=
  "https://api.census.gov/data/" ++ toString YEAR ++ "/acs/acs5/subject/groups/"
    ++ group_id ++ ".json"

/-- The request issued by `get_labels` (app.py line 62): no timeout argument. -/
def metaRequest (group_id : String) : Request := ⟨metaUrl group_id, none⟩

/-- The request issued by `fetch` (app.py line 52): `timeout=20`. -/
def dataRequest (url : String) : Request := ⟨url, some 20⟩

/-- Capacity `maxsize=256` of the `lru_cache` on `fetch`. -/
def CACHE_CAP : Nat := 256

/-- On a cache hit the entry becomes most recently used. -/
def lruPromote (c : List (String × Table)) (url : String) (t : Table) :
    List (String × Table) :=
  (url, t) :: c.filter (fun kv => kv.1 ≠ url)

/-- On a cache miss the new entry is inserted as most recent and the least
recently used entries beyond the capacity are evicted. -/
def lruInsert (c : List (String × Table)) (url : String) (t : Table) :
    List (String × Table) :=
  ((url, t) :: c.filter (fun kv => kv.1 ≠ url)).take CACHE_CAP

/-- Build the columns of `pd.DataFrame(j[1:], columns=j[0])`: column `i`
holds the `i`-th cell of every data row. -/
def mkCols : List String → List (List String) → Table
  | [], _ => []
  | h :: hs, body =>
    (h, body.map (fun r => r.headD "")) :: mkCols hs (body.map (fun r => r.tail))

/-- Parsing `pd.DataFrame(j[1:], columns=j[0])` followed by the duplicate-column
drop of app.py line 56.  An empty payload (`j[0]` raises) and
non-rectangular payloads are modelled as parse failures. -/
def parseRows : List (List String) → Option Table
  | [] => none
  | hdr :: body =>
    if body.all (fun r => r.length = hdr.length) then
      some (dedupCols (mkCols hdr body))
    else none

/-- Function `fetch` from app.py lines 50-56 under the `lru_cache`: on a hit the
cached table is returned with no network access; on a miss one request with
`timeout=20` is issued, `raise_for_status` rejects 4xx/5xx statuses,
unparseable bodies raise, and a parsed table is cached. -/
def fetch (fo : String → FetchOutcome) (s : NetState) (url : String) :
    Except RunErr Table × NetState :=
  match alookup s.fetchCache url with
  | some t => (.ok t, {s with fetchCache := lruPromote s.fetchCache url t})
  | none =>
    let s1 := {s with requestLog := s.requestLog ++ [dataRequest url]}
    match fo url with
    | .netError => (.error .fetchFailed, s1)
    | .resp status rows =>
      if 400 ≤ status ∧ status < 600 then (.error .fetchFailed, s1)
      else
        match rows with
        | none => (.error .fetchFailed, s1)
        | some rs =>
          match parseRows rs with
          | none => (.error .fetchFailed, s1)
          | some t => (.ok t, {s1 with fetchCache := lruInsert s1.fetchCache url t})

/-- Walk the `variables` entries extracting each `label` field, raising at
the first entry without one (`v["label"]` in app.py line 63). -/
def extractLabels : List (String × Option String) → Except MetaErr (List (String × String))
  | [] => .ok []
  | (_, none) :: _ => .error .missingLabel
  | (k, some lab) :: rest =>
    match extractLabels rest with
    | .error e => .error e
    | .ok m => .ok ((k, lab) :: m)

/-- The body handling of app.py lines 62-63:
`requests.get(meta_url).json()["variables"]` and the label comprehension.
The HTTP status is never examined (no `raise_for_status`). -/
def parse_labels (r : MetaResp) : Except MetaErr (List (String × String)) :=
  match r.varsObj with
  | none => .error .badBody
  | some vars => extractLabels vars

/-- Function `get_labels` from app.py lines 59-63 under `@cache`: on a hit the cached
mapping is returned with no network access; on a miss one request without a
timeout is issued and a successfully parsed mapping is cached (functools
caches only successful returns). -/
def get_labels (mo : String → MetaOutcome) (s : NetState) (group_id : String) :
    Except MetaErr (List (String × String)) × NetState :=
  match alookup s.labelsCache group_id with
  | some m => (.ok m, s)
  | none =>
    let s1 := {s with requestLog := s.requestLog ++ [metaRequest group_id]}
    match mo group_id with
    | .netError => (.error .network, s1)
    | .resp r =>
      match parse_labels r with
      | .error e => (.error e, s1)
      | .ok m => (.ok m, {s1 with labelsCache := s1.labelsCache ++ [(group_id, m)]})

/-- Word character of the regex `\w` (the labels are ASCII). -/
def isWordChar (c : Char) : Bool := c.isAlphanum || c = '_'

/-- Split off the maximal leading run of word characters. -/
def takeWordRun : List Char → List Char × List Char
  | [] => ([], [])
  | c :: cs =>
    if isWordChar c then
      let p := takeWordRun cs
      (c :: p.1, p.2)
    else ([], c :: cs)

/-- The remainder after the leading word run is no longer than the input. -/
theorem takeWordRun_snd_length (l : List Char) : (takeWordRun l).2.length ≤ l.length := by
  induction l with
  | nil => simp [takeWordRun]
  | cons c cs ih =>
    by_cases h : isWordChar c
    · simp only [takeWordRun, if_pos h]
      exact le_trans ih (Nat.le_succ _)
    · simp [takeWordRun, if_neg h]

/-- Substitution `re.sub(r"Estimate!!|\w+!!", "", ·)` from app.py line 98: remove every
maximal word-character run that is immediately followed by `!!` (the
`Estimate!!` alternative is subsumed, since `!` is not a word character). -/
def stripAxes (l : List Char) : List Char :=
  match l with
  | [] => []
  | c :: cs =>
    if isWordChar c then
      match h : (takeWordRun (c :: cs)).2 with
      | '!' :: '!' :: rest => stripAxes rest
      | _ => c :: stripAxes cs
    else c :: stripAxes cs
termination_by l.length
decreasing_by
  · have hlen := takeWordRun_snd_length (c :: cs)
    rw [h] at hlen
    simp only [List.length_cons] at hlen ⊢
    omega
  · simp [Nat.lt_succ_self]
  · simp [Nat.lt_succ_self]

/-- Label cleanup of app.py line 98: strip the axis markers, then `.strip()`. -/
def cleanLabel (s : String) : String := (String.mk (stripAxes s.data)).trim

/-- Expression `indicator.split('(')[0].strip()` from app.py line 100. -/
def shortName (indicator : String) : String := ((indicator.splitOn "(").headD "").trim

/-- Column renaming by an association mapping (`df.rename(columns=...)`):
columns whose name is not a key are unchanged. -/
def renameCols (m : List (String × String)) (t : Table) : Table :=
  t.map (fun c =>
    match alookup m c.1 with
    | some n => (n, c.2)
    | none => c)

/-- The data-pull URL of app.py lines 91-92. -/
def detailedUrl (vars : List String) (geo : String) : String :=
  "https://api.census.gov/data/" ++ toString YEAR ++ "/acs/acs5/subject?get=NAME,"
    ++ String.intercalate "," vars ++ "&" ++ geo ++ "&key=" ++ API_KEY

/-- The rename mapping of app.py lines 98-100: each selected variable code
maps to `"{short indicator name} – {cleaned label}"`; `labels[v]` raises if
a selected code has no metadata entry. -/
def buildRename (labels : List (String × String)) (indicator : String) :
    List String → Option (List (String × String))
  | [] => some []
  | v :: vs =>
    match alookup labels v with
    | none => none
    | some lab =>
      match buildRename labels indicator vs with
      | none => none
      | some rest => some ((v, shortName indicator ++ " – " ++ cleanLabel lab) :: rest)

/-- Function `pull_detailed` from app.py lines 87-101: resolve the group, select the
variables via the (cached) metadata, append the URL to `URL_HITS` before
fetching, fetch, and rename the variable columns. -/
def pull_detailed (mo : String → MetaOutcome) (fo : String → FetchOutcome)
    (s : NetState) (indicator geo : String) (want_age want_sex want_race : Bool) :
    Except RunErr Table × NetState :=
  match alookup DETAILED indicator with
  | none => (.error .keyMissing, s)
  | some gfu =>
    match get_labels mo s gfu.1 with
    | (.error e, s1) => (.error (.metaFailed e), s1)
    | (.ok labels, s1) =>
      let vars := select_vars labels gfu.1 gfu.2.1 want_age want_sex want_race
      let url := detailedUrl vars geo
      match fetch fo {s1 with urlHits := s1.urlHits ++ [url]} url with
      | (.error e, s2) => (.error e, s2)
      | (.ok t, s2) =>
        match get_labels mo s2 gfu.1 with
        | (.error e, s3) => (.error (.metaFailed e), s3)
        | (.ok labels2, s3) =>
          match buildRename labels2 indicator vars with
          | none => (.error .keyMissing, s3)
          | some ren => (.ok (renameCols ren t), s3)

/-- The data-pull URL of app.py lines 105-106. -/
def simpleUrl (code dataset geo : String) : String :=
  "https://api.census.gov/data/" ++ toString YEAR ++ "/acs/acs5/" ++ dataset
    ++ "?get=NAME," ++ code ++ "&" ++ geo ++ "&key=" ++ API_KEY

/-- Function `pull_simple` from app.py lines 104-108: append the URL to `URL_HITS`,
then fetch. -/
def pull_simple (fo : String → FetchOutcome) (s : NetState)
    (code dataset geo : String) : Except RunErr Table × NetState :=
  let url := simpleUrl code dataset geo
  fetch fo {s with urlHits := s.urlHits ++ [url]} url

/-- The dispatch condition of app.py line 137:
`ind in DETAILED and (want_age or want_sex or want_race)`. -/
def usesDetailed (indicator : String) (want_age want_sex want_race : Bool) : Bool :=
  (alookup DETAILED indicator).isSome && (want_age || want_sex || want_race)

/-- One iteration of the run loop (app.py lines 136-141): route the
indicator to the detailed or simple pull. -/
def pullFor (mo : String → MetaOutcome) (fo : String → FetchOutcome) (geo : String)
    (want_age want_sex want_race : Bool) (s : NetState) (indicator : String) :
    Except RunErr Table × NetState :=
  if usesDetailed indicator want_age want_sex want_race then
    pull_detailed mo fo s indicator geo want_age want_sex want_race
  else
    match alookup BASE_VARS indicator with
    | some cd => pull_simple fo s cd.1 cd.2 geo
    | none => (.error .keyMissing, s)

/-- The run loop over the chosen indicators; an exception propagates with
the state mutated so far. -/
def runFrames (mo : String → MetaOutcome) (fo : String → FetchOutcome) (geo : String)
    (want_age want_sex want_race : Bool) :
    NetState → List String → Except RunErr (List Table) × NetState
  | s, [] => (.ok [], s)
  | s, ind :: rest =>
    match pullFor mo fo geo want_age want_sex want_race s ind with
    | (.error e, s1) => (.error e, s1)
    | (.ok t, s1) =>
      match runFrames mo fo geo want_age want_sex want_race s1 rest with
      | (.error e, s2) => (.error e, s2)
      | (.ok ts, s2) => (.ok (t :: ts), s2)

/-- The base-column rename of app.py lines 147-150 (the `if code in
df.columns` guard is redundant: renaming only touches present columns). -/
def renameBase (t : Table) : Table :=
  renameCols (BASE_VARS.map (fun p => (p.2.1, p.1 ++ " (" ++ p.2.1 ++ ")"))) t

/-- The user selections read by the run handler. -/
structure Env where
  geo_level : String
  zcta_list : String
  chosen : List String
  want_age : Bool
  want_sex : Bool
  want_race : Bool

/-- The run-button handler of app.py lines 128-150: clear `URL_HITS`,
resolve the geography (halting with a validation error when it is absent),
pull every chosen indicator, concatenate, drop duplicate columns, and
rename the base columns.  `pd.concat` of zero frames raises. -/
def runOnce (mo : String → MetaOutcome) (fo : String → FetchOutcome) (env : Env)
    (s : NetState) : Except RunErr Table × NetState :=
  let s0 := {s with urlHits := []}
  match geo_clause env.geo_level env.zcta_list with
  | none => (.error .validation, s0)
  | some geo =>
    match runFrames mo fo geo env.want_age env.want_sex env.want_race s0 env.chosen with
    | (.error e, s1) => (.error e, s1)
    | (.ok frames, s1) =>
      if frames.isEmpty then (.error .emptyConcat, s1)
      else (.ok (renameBase (assemble frames)), s1)

/-- The exact request URL that one run-loop iteration for `indicator`
attempts to pull, or `none` when the pull aborts before building its URL
(indicator missing from `BASE_VARS`/`DETAILED`, or metadata failure on the
detailed path).  Derived from app.py lines 87-108 and 136-141: the detailed
URL is built from the metadata-selected variables, the simple URL from the
configured (code, dataset) pair.  This reads only the caches of `s`, never
`URL_HITS`. -/
def pullUrl (mo : String → MetaOutcome) (geo : String) (wa ws wr : Bool)
    (s : NetState) (indicator : String) : Option String :=
  if usesDetailed indicator wa ws wr then
    match alookup DETAILED indicator with
    | none => none
    | some gfu =>
      match (get_labels mo s gfu.1).1 with
      | .error _ => none
      | .ok labels => some (detailedUrl (select_vars labels gfu.1 gfu.2.1 wa ws wr) geo)
  else
    match alookup BASE_VARS indicator with
    | some cd => some (simpleUrl cd.1 cd.2 geo)
    | none => none

/-- The ordered sequence of data-pull request URLs attempted during a run
over `chosen`, defined independently of `URL_HITS`: each executed iteration
contributes its `pullUrl` (nothing when it aborts before building the URL),
and the sequence is cut short after the first failing pull, whose own URL
still counts when it was built before the failure (fetch or rename error).
Metadata requests contribute nothing: they are not data pulls. -/
def attemptedUrls (mo : String → MetaOutcome) (fo : String → FetchOutcome) (geo : String)
    (wa ws wr : Bool) : NetState → List String → List String
  | _, [] => []
  | s, ind :: rest =>
    match pullFor mo fo geo wa ws wr s ind with
    | (.error _, _) => (pullUrl mo geo wa ws wr s ind).toList
    | (.ok _, s1) =>
      (pullUrl mo geo wa ws wr s ind).toList ++ attemptedUrls mo fo geo wa ws wr s1 rest

/-- Responses on which app.py's `get_labels` raises: a transport failure, a
body without an extractable `variables` object, or a variable entry without
a `label` field.  A non-success HTTP status alone is NOT in this set: the
code never checks the status. -/
def metaBad : MetaOutcome → Bool
  | .netError => true
  | .resp r =>
    match r.varsObj with
    | none => true
    | some vars => vars.any (fun kv => kv.2.isNone)

/-! ### Concrete inputs used by counterexamples and witnesses -/

/-- A metadata response with a failing HTTP status but a perfectly
well-formed body. -/
def metaResp500 : MetaResp := ⟨500, some [("S1810_C02_001E", some "Estimate!!Total")]⟩

/-- Oracle failing every data request at transport level. -/
def foNetErr : String → FetchOutcome := fun _ => FetchOutcome.netError

/-- Oracle failing every metadata request at transport level. -/
def moNetErr : String → MetaOutcome := fun _ => MetaOutcome.netError

/-- Oracle answering every data request with one Pierce County row for the
median-household-income variable. -/
def foIncome : String → FetchOutcome :=
  fun _ => FetchOutcome.resp 200
    (some [["NAME", "S1901_C01_012E"], ["Pierce County, Washington", "82938"]])

/-- Run selections with a tab-only custom ZCTA input. -/
def envTab : Env := ⟨"ZCTA (custom list)", "\t", ["HS diploma 25+ (%)"], false, false, false⟩

/-- Run selections: county level, one simple indicator, no breakdowns. -/
def envIncome : Env := ⟨"County (Pierce)", "", ["Median household income ($)"], false, false, false⟩

/-- Oracle answering every metadata request with one well-formed variable
entry. -/
def moW : String → MetaOutcome :=
  fun _ => MetaOutcome.resp ⟨200, some [("S1810_C02_001E", some "Estimate!!Total")]⟩

/-- The state after one successful metadata fetch for group "S1810" from a
fresh process. -/
def stateW : NetState :=
  ⟨[], [], [("S1810", [("S1810_C02_001E", "Estimate!!Total")])], [metaRequest "S1810"]⟩

/-- Oracle whose metadata responses have no parseable body. -/
def moBad : String → MetaOutcome := fun _ => MetaOutcome.resp ⟨500, none⟩

/-- Concrete metadata mapping under which a requested breakdown matches
nothing: the only estimate label contains the measure fragment but no axis
marker, so the fallback code is returned. -/
def exLabels : List (String × String) :=
  [("S1810_C02_001E", "Estimate!!Total!!With a disability")]

/-- Concrete metadata mapping for the C2 witness: one matching estimate
variable with an age axis marker, one margin-of-error column. -/
def exLabelsW : List (String × String) :=
  [("S1810_C02_014E", "Estimate!!AGE!!5 to 17 years!!With a disability"),
   ("S1810_C02_014M", "Margin of Error!!AGE!!5 to 17 years!!With a disability")]

end CensusAPIBaker

namespace CensusAPIBaker

/-! ### Helper lemmas -/

/-- Lookup of a key that occurs in a duplicate-free association list finds
its value (Python dict semantics for the embedded mappings). -/
theorem alookup_of_mem {β : Type} {l : List (String × β)} {k : String} {v : β}
    (hnd : (l.map Prod.fst).Nodup) (hm : (k, v) ∈ l) : alookup l k = some v := by
  induction l with
  | nil => cases hm
  | cons kv rest ih =>
    simp only [List.map_cons, List.nodup_cons] at hnd
    rcases List.mem_cons.mp hm with h | h
    · rw [← h]
      simp [alookup]
    · have hk : kv.1 ≠ k := by
        intro he
        exact hnd.1 (he ▸ (List.mem_map.mpr ⟨(k, v), h, rfl⟩))
      simp only [alookup, if_neg hk]
      exact ih hnd.2 h

/-- With all breakdown flags off, the axis filter rejects every label. -/
theorem axis_keep_false (lab : String) : axis_keep false false false lab = false := by
  simp [axis_keep]

/-- With all breakdown flags off, no variable survives the `select_vars` loop. -/
theorem matched_vars_none (labels : List (String × String)) (measure_fragment : String) :
    matched_vars labels measure_fragment false false false = [] := by
  simp [matched_vars, axis_keep_false]

/-- When at least one variable survives, `select_vars` returns exactly the
survivors. -/
theorem select_vars_of_matched (labels : List (String × String))
    (group_id measure_fragment : String) (want_age want_sex want_race : Bool)
    (hne : matched_vars labels measure_fragment want_age want_sex want_race ≠ []) :
    select_vars labels group_id measure_fragment want_age want_sex want_race
      = matched_vars labels measure_fragment want_age want_sex want_race := by
  have : (matched_vars labels measure_fragment want_age want_sex want_race).isEmpty = false := by
    cases h : matched_vars labels measure_fragment want_age want_sex want_race with
    | nil => exact absurd h hne
    | cons a t => rfl
  simp [select_vars, this]

/-- A name already kept is never emitted again. -/
theorem keepFirstCols_not_mem {n : String} (seen : List String) (t : Table)
    (h : n ∈ seen) : n ∉ (keepFirstCols seen t).map Prod.fst := by
  induction t generalizing seen with
  | nil => simp [keepFirstCols]
  | cons c rest ih =>
    by_cases hc : c.1 ∈ seen
    · simpa [keepFirstCols, hc] using ih seen h
    · have hne : n ≠ c.1 := fun he => hc (he ▸ h)
      simp only [keepFirstCols, if_neg hc, List.map_cons, List.mem_cons]
      rintro (he | hm)
      · exact hne he
      · exact ih (c.1 :: seen) (List.mem_cons_of_mem _ h) hm

/-- Keep-first preserves the first binding of every name not yet seen. -/
theorem keepFirstCols_alookup (seen : List String) (t : Table) (n : String)
    (h : n ∉ seen) : alookup (keepFirstCols seen t) n = alookup t n := by
  induction t generalizing seen with
  | nil => rfl
  | cons c rest ih =>
    by_cases hc : c.1 ∈ seen
    · have hne : c.1 ≠ n := fun he => h (he ▸ hc)
      simp only [keepFirstCols, if_pos hc, alookup, if_neg hne]
      exact ih seen h
    · by_cases he : c.1 = n
      · subst he
        simp [keepFirstCols, if_neg hc, alookup]
      · simp only [keepFirstCols, if_neg hc, alookup, if_neg he]
        exact ih (c.1 :: seen) (by
          intro hm
          rcases List.mem_cons.mp hm with hm | hm
          · exact he hm.symm
          · exact h hm)

/-- After keep-first, a name not yet seen occurs exactly once if it occurs
at all. -/
theorem keepFirstCols_count (seen : List String) (t : Table) (n : String)
    (h : n ∉ seen) :
    ((keepFirstCols seen t).map Prod.fst).count n
      = if (alookup t n).isSome then 1 else 0 := by
  induction t generalizing seen with
  | nil => simp [keepFirstCols, alookup]
  | cons c rest ih =>
    by_cases hc : c.1 ∈ seen
    · have hne : c.1 ≠ n := fun he => h (he ▸ hc)
      simp only [keepFirstCols, if_pos hc, alookup, if_neg hne]
      exact ih seen h
    · by_cases he : c.1 = n
      · simp only [keepFirstCols, if_neg hc, alookup, if_pos he, List.map_cons,
          List.count_cons, Option.isSome_some, if_true]
        have h0 : n ∉ (keepFirstCols (c.1 :: seen) rest).map Prod.fst :=
          keepFirstCols_not_mem (c.1 :: seen) rest (he ▸ List.mem_cons_self c.1 seen)
        rw [List.count_eq_zero.mpr h0]
        simp [he]
      · simp only [keepFirstCols, if_neg hc, alookup, if_neg he, List.map_cons,
          List.count_cons]
        rw [ih (c.1 :: seen) (by
          intro hm
          rcases List.mem_cons.mp hm with hm | hm
          · exact he hm.symm
          · exact h hm)]
        have hb : (c.1 == n) = false := by
          exact beq_eq_false_iff_ne.mpr he
        simp [hb]

/-- A lookup that succeeds in the left list succeeds identically in the
concatenation. -/
theorem alookup_append_left {β : Type} {l1 : List (String × β)} (l2 : List (String × β))
    {k : String} {v : β} (h : alookup l1 k = some v) :
    alookup (l1 ++ l2) k = some v := by
  induction l1 with
  | nil => cases h
  | cons kv rest ih =>
    by_cases he : kv.1 = k
    · simpa [alookup, he] using h
    · simp only [alookup, if_neg he] at h
      simpa [alookup, he] using ih h

/-- Appending a fresh binding at the tail makes it visible to lookup. -/
theorem alookup_append_fresh {β : Type} {l : List (String × β)} {k : String} (v : β)
    (h : alookup l k = none) : alookup (l ++ [(k, v)]) k = some v := by
  induction l with
  | nil => simp [alookup]
  | cons kv rest ih =>
    by_cases he : kv.1 = k
    · rw [alookup, if_pos he] at h
      cases h
    · rw [alookup, if_neg he] at h
      rw [List.cons_append, alookup, if_neg he]
      exact ih h

/-- Lemma: `fetch` never touches `URL_HITS` or the metadata cache. -/
theorem fetch_state (fo : String → FetchOutcome) (s : NetState) (url : String) :
    (fetch fo s url).2.urlHits = s.urlHits ∧
    (fetch fo s url).2.labelsCache = s.labelsCache := by
  unfold fetch
  repeat' split
  all_goals exact ⟨rfl, rfl⟩

/-- Lemma: `fetch` appends one actual HTTP request exactly on a cache miss. -/
theorem fetch_requestLog (fo : String → FetchOutcome) (s : NetState) (url : String) :
    (fetch fo s url).2.requestLog
      = s.requestLog ++
        (if (alookup s.fetchCache url).isSome then [] else [dataRequest url]) := by
  unfold fetch
  cases h : alookup s.fetchCache url with
  | some t => simp [h]
  | none =>
    simp only [h, Option.isSome_none, Bool.false_eq_true, if_false]
    repeat' split
    all_goals rfl

/-- Lemma: `get_labels` never touches `URL_HITS` or the response cache, appends at
most one actual HTTP request, and preserves every cached metadata entry. -/
theorem get_labels_state (mo : String → MetaOutcome) (s : NetState) (group_id : String) :
    (get_labels mo s group_id).2.urlHits = s.urlHits ∧
    (get_labels mo s group_id).2.fetchCache = s.fetchCache ∧
    ((get_labels mo s group_id).2.requestLog = s.requestLog ∨
      (get_labels mo s group_id).2.requestLog = s.requestLog ++ [metaRequest group_id]) ∧
    (∀ k m, alookup s.labelsCache k = some m →
      alookup (get_labels mo s group_id).2.labelsCache k = some m) := by
  unfold get_labels
  repeat' split
  all_goals
    refine ⟨rfl, rfl, ?_, fun k m hm => ?_⟩ <;>
      first
        | exact Or.inl rfl
        | exact Or.inr rfl
        | exact hm
        | exact alookup_append_left _ hm

/-- Lemma: `pull_simple` appends its exact URL to `URL_HITS` before the fetch —
even when the fetch fails or is answered from the cache — and preserves the
metadata cache. -/
theorem pull_simple_state (fo : String → FetchOutcome) (s : NetState)
    (code dataset geo : String) :
    (pull_simple fo s code dataset geo).2.urlHits
      = s.urlHits ++ [simpleUrl code dataset geo] ∧
    (pull_simple fo s code dataset geo).2.labelsCache = s.labelsCache := by
  unfold pull_simple
  refine ⟨?_, ?_⟩
  · rw [(fetch_state fo _ _).1]
  · rw [(fetch_state fo _ _).2]

/-- Lemma: `pull_detailed` appends at most one URL to `URL_HITS` and preserves
every cached metadata entry. -/
theorem pull_detailed_state (mo : String → MetaOutcome) (fo : String → FetchOutcome)
    (s : NetState) (indicator geo : String) (wa ws wr : Bool) :
    ((pull_detailed mo fo s indicator geo wa ws wr).2.urlHits = s.urlHits ∨
      ∃ u, (pull_detailed mo fo s indicator geo wa ws wr).2.urlHits = s.urlHits ++ [u]) ∧
    (∀ k m, alookup s.labelsCache k = some m →
      alookup (pull_detailed mo fo s indicator geo wa ws wr).2.labelsCache k = some m) := by
  unfold pull_detailed
  split
  · exact ⟨Or.inl rfl, fun k m hm => hm⟩
  · rename_i gfu hd
    split
    · rename_i e s1 hg1
      have hst1 := get_labels_state mo s gfu.1
      rw [hg1] at hst1
      exact ⟨Or.inl hst1.1, fun k m hm => hst1.2.2.2 k m hm⟩
    · rename_i labels s1 hg1
      have hst1 := get_labels_state mo s gfu.1
      rw [hg1] at hst1
      dsimp only
      split
      · rename_i e s2 hf
        have hst2 := fetch_state fo
            {s1 with urlHits := s1.urlHits ++
              [detailedUrl (select_vars labels gfu.1 gfu.2.1 wa ws wr) geo]}
            (detailedUrl (select_vars labels gfu.1 gfu.2.1 wa ws wr) geo)
        rw [hf] at hst2
        refine ⟨Or.inr ⟨detailedUrl (select_vars labels gfu.1 gfu.2.1 wa ws wr) geo, ?_⟩,
          fun k m hm => ?_⟩
        · rw [show s2.urlHits = s1.urlHits ++
              [detailedUrl (select_vars labels gfu.1 gfu.2.1 wa ws wr) geo] from hst2.1,
            hst1.1]
        · rw [show s2.labelsCache = s1.labelsCache from hst2.2]
          exact hst1.2.2.2 k m hm
      · rename_i t s2 hf
        have hst2 := fetch_state fo
            {s1 with urlHits := s1.urlHits ++
              [detailedUrl (select_vars labels gfu.1 gfu.2.1 wa ws wr) geo]}
            (detailedUrl (select_vars labels gfu.1 gfu.2.1 wa ws wr) geo)
        rw [hf] at hst2
        have hu2 : s2.urlHits = s.urlHits ++
            [detailedUrl (select_vars labels gfu.1 gfu.2.1 wa ws wr) geo] := by
          rw [show s2.urlHits = s1.urlHits ++
              [detailedUrl (select_vars labels gfu.1 gfu.2.1 wa ws wr) geo] from hst2.1,
            hst1.1]
        have hl2 : ∀ k m, alookup s.labelsCache k = some m →
            alookup s2.labelsCache k = some m := by
          intro k m hm
          rw [show s2.labelsCache = s1.labelsCache from hst2.2]
          exact hst1.2.2.2 k m hm
        split
        · rename_i e s3 hg2
          have hst3 := get_labels_state mo s2 gfu.1
          rw [hg2] at hst3
          exact ⟨Or.inr ⟨_, hst3.1.trans hu2⟩, fun k m hm => hst3.2.2.2 k m (hl2 k m hm)⟩
        · rename_i labels2 s3 hg2
          have hst3 := get_labels_state mo s2 gfu.1
          rw [hg2] at hst3
          split
          · exact ⟨Or.inr ⟨_, hst3.1.trans hu2⟩, fun k m hm => hst3.2.2.2 k m (hl2 k m hm)⟩
          · exact ⟨Or.inr ⟨_, hst3.1.trans hu2⟩, fun k m hm => hst3.2.2.2 k m (hl2 k m hm)⟩

/-- Lemma: when the detailed path reaches its fetch (group resolved and
metadata obtained), `pull_detailed` appends exactly its request URL — the
detailed URL over the metadata-selected variables — whatever the fetch and
rename then do. -/
theorem pull_detailed_url (mo : String → MetaOutcome) (fo : String → FetchOutcome)
    (s : NetState) (indicator geo : String) (wa ws wr : Bool)
    (gfu : String × String × String) (labels : List (String × String)) (s1 : NetState)
    (hd : alookup DETAILED indicator = some gfu)
    (hg : get_labels mo s gfu.1 = (.ok labels, s1)) :
    (pull_detailed mo fo s indicator geo wa ws wr).2.urlHits
      = s.urlHits ++ [detailedUrl (select_vars labels gfu.1 gfu.2.1 wa ws wr) geo] := by
  have hst1 := get_labels_state mo s gfu.1
  rw [hg] at hst1
  simp only [pull_detailed, hd, hg]
  split
  · rename_i e s2 hf
    have hst2 := fetch_state fo
        {s1 with urlHits := s1.urlHits ++
          [detailedUrl (select_vars labels gfu.1 gfu.2.1 wa ws wr) geo]}
        (detailedUrl (select_vars labels gfu.1 gfu.2.1 wa ws wr) geo)
    rw [hf] at hst2
    rw [show s2.urlHits = s1.urlHits ++
        [detailedUrl (select_vars labels gfu.1 gfu.2.1 wa ws wr) geo] from hst2.1]
    rw [show s1.urlHits = s.urlHits from hst1.1]
  · rename_i t s2 hf
    have hst2 := fetch_state fo
        {s1 with urlHits := s1.urlHits ++
          [detailedUrl (select_vars labels gfu.1 gfu.2.1 wa ws wr) geo]}
        (detailedUrl (select_vars labels gfu.1 gfu.2.1 wa ws wr) geo)
    rw [hf] at hst2
    have hu2 : s2.urlHits = s.urlHits ++
        [detailedUrl (select_vars labels gfu.1 gfu.2.1 wa ws wr) geo] := by
      rw [show s2.urlHits = s1.urlHits ++
          [detailedUrl (select_vars labels gfu.1 gfu.2.1 wa ws wr) geo] from hst2.1]
      rw [show s1.urlHits = s.urlHits from hst1.1]
    split
    · rename_i e s3 hg2
      have hst3 := get_labels_state mo s2 gfu.1
      rw [hg2] at hst3
      rw [show s3.urlHits = s2.urlHits from hst3.1]
      exact hu2
    · rename_i labels2 s3 hg2
      have hst3 := get_labels_state mo s2 gfu.1
      rw [hg2] at hst3
      split
      · rw [show s3.urlHits = s2.urlHits from hst3.1]
        exact hu2
      · rw [show s3.urlHits = s2.urlHits from hst3.1]
        exact hu2

/-- Lemma: one run-loop iteration changes `URL_HITS` by exactly the pull's
request URL — `pullUrl` — appending nothing exactly when the pull aborts
before building its URL. -/
theorem pullFor_url (mo : String → MetaOutcome) (fo : String → FetchOutcome)
    (geo : String) (wa ws wr : Bool) (s : NetState) (indicator : String) :
    (pullFor mo fo geo wa ws wr s indicator).2.urlHits
      = s.urlHits ++ (pullUrl mo geo wa ws wr s indicator).toList := by
  by_cases hud : usesDetailed indicator wa ws wr
  · cases hd : alookup DETAILED indicator with
    | none =>
      simp only [pullFor, pullUrl, if_pos hud, hd, pull_detailed]
      simp
    | some gfu =>
      rcases hg : get_labels mo s gfu.1 with ⟨res1, s1⟩
      have hst1 := get_labels_state mo s gfu.1
      rw [hg] at hst1
      cases res1 with
      | error e =>
        simp only [pullFor, pullUrl, if_pos hud, hd, pull_detailed, hg]
        simpa using hst1.1
      | ok labels =>
        simp only [pullFor, pullUrl, if_pos hud, hd, hg]
        exact pull_detailed_url mo fo s indicator geo wa ws wr gfu labels s1 hd hg
  · cases hb : alookup BASE_VARS indicator with
    | none =>
      simp only [pullFor, pullUrl, if_neg hud, hb]
      simp
    | some cd =>
      simp only [pullFor, pullUrl, if_neg hud, hb]
      simpa using (pull_simple_state fo s cd.1 cd.2 geo).1

/-- Lemma: across the whole run loop, `URL_HITS` grows by exactly the
ordered sequence of attempted data-pull URLs. -/
theorem runFrames_urls (mo : String → MetaOutcome) (fo : String → FetchOutcome)
    (geo : String) (wa ws wr : Bool) (chosen : List String) (s : NetState) :
    (runFrames mo fo geo wa ws wr s chosen).2.urlHits
      = s.urlHits ++ attemptedUrls mo fo geo wa ws wr s chosen := by
  induction chosen generalizing s with
  | nil => simp [runFrames, attemptedUrls]
  | cons ind rest ih =>
    rcases hp : pullFor mo fo geo wa ws wr s ind with ⟨res1, s1⟩
    have hpu := pullFor_url mo fo geo wa ws wr s ind
    rw [hp] at hpu
    cases res1 with
    | error e =>
      rw [runFrames, attemptedUrls]
      simp only [hp]
      exact hpu
    | ok t =>
      rcases hr : runFrames mo fo geo wa ws wr s1 rest with ⟨res2, s2⟩
      have hih := ih s1
      rw [hr] at hih
      cases res2 with
      | error e =>
        rw [runFrames, attemptedUrls]
        simp only [hp, hr]
        rw [hih, hpu, List.append_assoc]
      | ok ts =>
        rw [runFrames, attemptedUrls]
        simp only [hp, hr]
        rw [hih, hpu, List.append_assoc]

/-- Lemma: at the end of a run, `URL_HITS` is exactly the ordered sequence
of data-pull URLs attempted during that run (empty when validation halts
the run). -/
theorem runOnce_urls (mo : String → MetaOutcome) (fo : String → FetchOutcome)
    (env : Env) (s : NetState) :
    (runOnce mo fo env s).2.urlHits
      = (match geo_clause env.geo_level env.zcta_list with
         | none => []
         | some geo => attemptedUrls mo fo geo env.want_age env.want_sex env.want_race
             {s with urlHits := []} env.chosen) := by
  unfold runOnce
  cases hg : geo_clause env.geo_level env.zcta_list with
  | none => simp only [hg]
  | some geo =>
    simp only [hg]
    rcases hr : runFrames mo fo geo env.want_age env.want_sex env.want_race
        {s with urlHits := []} env.chosen with ⟨res, s1⟩
    have hru := runFrames_urls mo fo geo env.want_age env.want_sex env.want_race env.chosen
        {s with urlHits := []}
    rw [hr] at hru
    cases res with
    | error e =>
      simp only [hr]
      simpa using hru
    | ok frames =>
      simp only [hr]
      by_cases hf : frames.isEmpty = true
      · simp only [hf, if_true]
        simpa using hru
      · simp only [hf, if_false]
        simpa using hru

/-- One run-loop step preserves every cached metadata entry. -/
theorem pullFor_labels (mo : String → MetaOutcome) (fo : String → FetchOutcome)
    (geo : String) (wa ws wr : Bool) (s : NetState) (indicator : String)
    {k : String} {m : List (String × String)}
    (hm : alookup s.labelsCache k = some m) :
    alookup (pullFor mo fo geo wa ws wr s indicator).2.labelsCache k = some m := by
  unfold pullFor
  by_cases hud : usesDetailed indicator wa ws wr
  · rw [if_pos hud]
    exact (pull_detailed_state mo fo s indicator geo wa ws wr).2 k m hm
  · rw [if_neg hud]
    cases alookup BASE_VARS indicator with
    | none => exact hm
    | some cd =>
      rw [(pull_simple_state fo s cd.1 cd.2 geo).2]
      exact hm

/-- The run loop preserves every cached metadata entry. -/
theorem runFrames_labels (mo : String → MetaOutcome) (fo : String → FetchOutcome)
    (geo : String) (wa ws wr : Bool) (chosen : List String) (s : NetState)
    {k : String} {m : List (String × String)}
    (hm : alookup s.labelsCache k = some m) :
    alookup (runFrames mo fo geo wa ws wr s chosen).2.labelsCache k = some m := by
  induction chosen generalizing s with
  | nil => exact hm
  | cons ind rest ih =>
    rw [runFrames]
    split
    · rename_i e s1 hp
      have h1 := pullFor_labels mo fo geo wa ws wr s ind hm
      rw [hp] at h1
      exact h1
    · rename_i t s1 hp
      have h1 : alookup s1.labelsCache k = some m := by
        have h1 := pullFor_labels mo fo geo wa ws wr s ind hm
        rw [hp] at h1
        exact h1
      split
      · rename_i e s2 hr
        have h2 := ih s1 h1
        rw [hr] at h2
        exact h2
      · rename_i ts s2 hr
        have h2 := ih s1 h1
        rw [hr] at h2
        exact h2

/-- A whole run preserves every cached metadata entry: the `@cache` on
`get_labels` lives for the remaining lifetime of the process. -/
theorem runOnce_labels (mo : String → MetaOutcome) (fo : String → FetchOutcome)
    (env : Env) (s : NetState) {k : String} {m : List (String × String)}
    (hm : alookup s.labelsCache k = some m) :
    alookup (runOnce mo fo env s).2.labelsCache k = some m := by
  unfold runOnce
  split
  · exact hm
  · rename_i geo hgeo
    dsimp only
    split
    · rename_i e s1 hr
      have h1 := runFrames_labels mo fo geo env.want_age env.want_sex env.want_race
        env.chosen {s with urlHits := []} hm
      rw [hr] at h1
      exact h1
    · rename_i frames s1 hr
      have h1 : alookup s1.labelsCache k = some m := by
        have h1 := runFrames_labels mo fo geo env.want_age env.want_sex env.want_race
          env.chosen {s with urlHits := []} hm
        rw [hr] at h1
        exact h1
      split
      · exact h1
      · exact h1

/-- Bad `variables` entries make the label extraction raise. -/
theorem extractLabels_err (vars : List (String × Option String))
    (h : vars.any (fun kv => kv.2.isNone) = true) :
    ∃ e, extractLabels vars = .error e := by
  induction vars with
  | nil => cases h
  | cons kv rest ih =>
    rcases kv with ⟨k, lab⟩
    cases lab with
    | none => exact ⟨.missingLabel, rfl⟩
    | some l =>
      simp only [List.any_cons, Option.isSome_some, Bool.or_eq_true] at h
      rcases h with h | h
      · simp at h
      · obtain ⟨e, he⟩ := ih h
        exact ⟨e, by rw [extractLabels, he]⟩

/-! ### Claim theorems -/

/-- C1: if no breakdown flag is set, or no variable in the group's metadata
survives the filtering steps, then `select_vars` returns exactly the
one-element list `[group_id ++ "_001E"]`; consequently `select_vars` never
returns an empty list. -/
theorem claim_C1 (labels : List (String × String)) (group_id measure_fragment : String)
    (want_age want_sex want_race : Bool) :
    ((want_age = false ∧ want_sex = false ∧ want_race = false) ∨
        matched_vars labels measure_fragment want_age want_sex want_race = [] →
      select_vars labels group_id measure_fragment want_age want_sex want_race
        = [group_id ++ "_001E"]) ∧
    select_vars labels group_id measure_fragment want_age want_sex want_race ≠ [] := by
  constructor
  · intro h
    have hnil : matched_vars labels measure_fragment want_age want_sex want_race = [] := by
      rcases h with ⟨ha, hs, hr⟩ | h
      · subst ha; subst hs; subst hr
        exact matched_vars_none labels measure_fragment
      · exact h
    simp [select_vars, hnil]
  · by_cases hne : matched_vars labels measure_fragment want_age want_sex want_race = []
    · simp [select_vars, hne]
    · rw [select_vars_of_matched labels group_id measure_fragment _ _ _ hne]
      exact hne

/-- Witness for C1 at a concrete metadata mapping with no flags set. -/
theorem claim_C1_witness :
    select_vars [("S1810_C02_001E", "Estimate!!Total")] "S1810" "With a disability"
        false false false = ["S1810_001E"] ∧
    select_vars [("S1810_C02_001E", "Estimate!!Total")] "S1810" "With a disability"
        false false false ≠ [] :=
  ⟨(claim_C1 [("S1810_C02_001E", "Estimate!!Total")] "S1810" "With a disability"
      false false false).1 (Or.inl ⟨rfl, rfl, rfl⟩),
   (claim_C1 [("S1810_C02_001E", "Estimate!!Total")] "S1810" "With a disability"
      false false false).2⟩

/-- C2 counterexample: with `want_age` requested, `select_vars` falls back to
`"S1810_001E"`, a code with no entry at all in the metadata mapping — so its
label cannot contain the measure fragment or any axis marker, refuting the
claim that every returned code's label contains both. -/
theorem claim_C2_counterexample :
    select_vars exLabels "S1810" "With a disability" true false false = ["S1810_001E"] ∧
    alookup exLabels "S1810_001E" = none ∧
    (alookup exLabels "S1810_001E").elim false
      (fun lab => strContains lab "With a disability") = false := by
  refine ⟨by decide, by decide, by decide⟩

/-- C2 amended: when at least one breakdown flag is set AND at least one
variable survives the filter (so the fallback is not taken), every code
returned by `select_vars` ends in "E", has a metadata label containing the
measure fragment and a requested axis marker, and appears at most once
(given the dict invariant that metadata keys are duplicate-free). -/
theorem claim_C2_amended (labels : List (String × String))
    (group_id measure_fragment : String) (want_age want_sex want_race : Bool)
    (hnd : (labels.map Prod.fst).Nodup)
    (_hflag : want_age = true ∨ want_sex = true ∨ want_race = true)
    (hne : matched_vars labels measure_fragment want_age want_sex want_race ≠ []) :
    (∀ v ∈ select_vars labels group_id measure_fragment want_age want_sex want_race,
        strEndsWith v "E" = true ∧
        ∃ lab, alookup labels v = some lab ∧
          strContains lab measure_fragment = true ∧
          axis_keep want_age want_sex want_race lab = true) ∧
    (select_vars labels group_id measure_fragment want_age want_sex want_race).Nodup := by
  rw [select_vars_of_matched labels group_id measure_fragment _ _ _ hne]
  constructor
  · intro v hv
    simp only [matched_vars, List.mem_map] at hv
    obtain ⟨vl, hvl, hveq⟩ := hv
    rw [List.mem_filter] at hvl
    obtain ⟨hmem, hpred⟩ := hvl
    simp only [Bool.and_eq_true] at hpred
    refine ⟨hveq ▸ hpred.1.1, vl.2, ?_, hpred.1.2, hpred.2⟩
    rw [← hveq]
    exact alookup_of_mem hnd (by simpa using hmem)
  · have hsub : (matched_vars labels measure_fragment want_age want_sex want_race).Sublist
        (labels.map Prod.fst) :=
      (List.filter_sublist labels).map Prod.fst
    exact hsub.nodup hnd

/-- Witness for the amended C2 at a concrete metadata mapping. -/
theorem claim_C2_amended_witness :
    (∀ v ∈ select_vars exLabelsW "S1810" "With a disability" true false false,
        strEndsWith v "E" = true ∧
        ∃ lab, alookup exLabelsW v = some lab ∧
          strContains lab "With a disability" = true ∧
          axis_keep true false false lab = true) ∧
    (select_vars exLabelsW "S1810" "With a disability" true false false).Nodup :=
  claim_C2_amended exLabelsW "S1810" "With a disability" true false false
    (by decide) (Or.inl rfl) (by decide)

/-- C5: assembling two tables that both contain a `NAME` column yields a
merged table with exactly one `NAME` column, whose values are those of the
first table's (first) `NAME` column. -/
theorem claim_C5 (t1 t2 : Table) (v w : List String)
    (h1 : alookup t1 "NAME" = some v) (_h2 : alookup t2 "NAME" = some w) :
    ((assemble [t1, t2]).map Prod.fst).count "NAME" = 1 ∧
    alookup (assemble [t1, t2]) "NAME" = some v := by
  have hj : ([t1, t2] : List Table).flatten = t1 ++ t2 := by
    simp
  have hl : alookup (t1 ++ t2) "NAME" = some v := alookup_append_left t2 h1
  constructor
  · rw [assemble, hj, dedupCols,
      keepFirstCols_count [] (t1 ++ t2) "NAME" (List.not_mem_nil "NAME"), hl]
    rfl
  · rw [assemble, hj, dedupCols,
      keepFirstCols_alookup [] (t1 ++ t2) "NAME" (List.not_mem_nil "NAME")]
    exact hl

/-- Witness for C5 on two concrete one-row tables sharing `NAME`. -/
theorem claim_C5_witness :
    ((assemble [[("NAME", ["Pierce County"]), ("S1901_C01_012E", ["83000"])],
                [("NAME", ["Pierce County again"]), ("DP02_0062PE", ["91.5"])]]).map
        Prod.fst).count "NAME" = 1 ∧
    alookup (assemble [[("NAME", ["Pierce County"]), ("S1901_C01_012E", ["83000"])],
                       [("NAME", ["Pierce County again"]), ("DP02_0062PE", ["91.5"])]])
        "NAME" = some ["Pierce County"] :=
  claim_C5 [("NAME", ["Pierce County"]), ("S1901_C01_012E", ["83000"])]
    [("NAME", ["Pierce County again"]), ("DP02_0062PE", ["91.5"])]
    ["Pierce County"] ["Pierce County again"] (by decide) (by decide)

/-- C3 counterexample: the code strips only space characters
(`replace(" ", "")`), not all whitespace — a tab-only custom-ZCTA input is
not detected as empty: the Geography Resolver returns a clause rather than
the Empty sentinel, and a run with that input proceeds to a data pull,
leaving the URL Log non-empty. -/
theorem claim_C3_counterexample :
    geo_clause "ZCTA (custom list)" "\t"
      = some "for=zip%20code%20tabulation%20area:\t" ∧
    (runOnce moNetErr foNetErr envTab initState).2.urlHits
      = [simpleUrl "DP02_0062PE" "profile" "for=zip%20code%20tabulation%20area:\t"] := by
  exact ⟨rfl, rfl⟩

/-- C3 amended: for every custom-ZCTA input consisting only of SPACE
characters (or empty), `geo_clause` returns the Empty sentinel without
throwing, and the run halts with a validation error before any network
call, leaving the URL Log empty and issuing no HTTP request. -/
theorem claim_C3_amended (z : String) (hz : ∀ c ∈ z.data, c = ' ')
    (mo : String → MetaOutcome) (fo : String → FetchOutcome)
    (chosen : List String) (wa ws wr : Bool) (s : NetState) :
    geo_clause "ZCTA (custom list)" z = none ∧
    runOnce mo fo ⟨"ZCTA (custom list)", z, chosen, wa, ws, wr⟩ s
      = (.error .validation, {s with urlHits := []}) ∧
    (runOnce mo fo ⟨"ZCTA (custom list)", z, chosen, wa, ws, wr⟩ s).2.urlHits = [] ∧
    (runOnce mo fo ⟨"ZCTA (custom list)", z, chosen, wa, ws, wr⟩ s).2.requestLog
      = s.requestLog := by
  have hzips : removeSpaces z = "" := by
    unfold removeSpaces
    have hnil : z.data.filter (fun c => decide (c ≠ ' ')) = [] := by
      rw [List.filter_eq_nil_iff]
      intro c hc
      have hcs : c = ' ' := hz c hc
      simp [hcs]
    rw [hnil]
  have hgeo : geo_clause "ZCTA (custom list)" z = none := by
    unfold geo_clause
    rw [if_neg (by decide), if_neg (by decide)]
    simp [hzips]
  have hrun : runOnce mo fo ⟨"ZCTA (custom list)", z, chosen, wa, ws, wr⟩ s
      = (.error .validation, {s with urlHits := []}) := by
    simp [runOnce, hgeo]
  refine ⟨hgeo, hrun, ?_, ?_⟩
  · rw [hrun]
  · rw [hrun]

/-- Witness for the amended C3 at a concrete all-space input. -/
theorem claim_C3_amended_witness :
    (∀ c ∈ ("  " : String).data, c = ' ') ∧
    (geo_clause "ZCTA (custom list)" "  " = none ∧
      runOnce moNetErr foNetErr ⟨"ZCTA (custom list)", "  ", ["Disability (%)"], true, false,
          false⟩ initState
        = (.error .validation, {initState with urlHits := []}) ∧
      (runOnce moNetErr foNetErr ⟨"ZCTA (custom list)", "  ", ["Disability (%)"], true, false,
          false⟩ initState).2.urlHits = [] ∧
      (runOnce moNetErr foNetErr ⟨"ZCTA (custom list)", "  ", ["Disability (%)"], true, false,
          false⟩ initState).2.requestLog = initState.requestLog) :=
  ⟨by decide,
   claim_C3_amended "  " (by decide) moNetErr foNetErr ["Disability (%)"] true false false
     initState⟩

/-- C4: from a state where `group_id` is uncached, a successful `get_labels`
call issues exactly one metadata request; a second call with the same group
id returns the identical mapping with no new request and unchanged state;
and the cached mapping survives any later run, so every later call also
returns it without a request, for the remaining lifetime of the process. -/
theorem claim_C4 (mo : String → MetaOutcome) (s s1 : NetState) (group_id : String)
    (m : List (String × String))
    (hun : alookup s.labelsCache group_id = none)
    (h1 : get_labels mo s group_id = (.ok m, s1)) :
    s1.requestLog = s.requestLog ++ [metaRequest group_id] ∧
    get_labels mo s1 group_id = (.ok m, s1) ∧
    (∀ (mo2 : String → MetaOutcome) (fo2 : String → FetchOutcome) (env : Env),
      get_labels mo2 (runOnce mo2 fo2 env s1).2 group_id
        = (.ok m, (runOnce mo2 fo2 env s1).2)) := by
  rw [get_labels] at h1
  simp only [hun] at h1
  split at h1
  · simp at h1
  · split at h1
    · simp at h1
    · rename_i m2 hp
      simp only [Prod.mk.injEq, Except.ok.injEq] at h1
      obtain ⟨hm2, hs1⟩ := h1
      rw [hm2] at hs1
      subst hs1
      have hc : alookup (s.labelsCache ++ [(group_id, m)]) group_id = some m :=
        alookup_append_fresh m hun
      refine ⟨by simp, ?_, ?_⟩
      · simp [get_labels, hc]
      · intro mo2 fo2 env
        have hc2 := @runOnce_labels mo2 fo2 env
          {s with requestLog := s.requestLog ++ [metaRequest group_id]
                  labelsCache := s.labelsCache ++ [(group_id, m)]} group_id m hc
        simp [get_labels, hc2]

/-- Witness for C4: a fresh process, one concrete metadata oracle. -/
theorem claim_C4_witness :
    alookup initState.labelsCache "S1810" = none ∧
    get_labels moW initState "S1810"
      = (.ok [("S1810_C02_001E", "Estimate!!Total")], stateW) ∧
    (stateW.requestLog = initState.requestLog ++ [metaRequest "S1810"] ∧
      get_labels moW stateW "S1810"
        = (.ok [("S1810_C02_001E", "Estimate!!Total")], stateW) ∧
      (∀ (mo2 : String → MetaOutcome) (fo2 : String → FetchOutcome) (env : Env),
        get_labels mo2 (runOnce mo2 fo2 env stateW).2 "S1810"
          = (.ok [("S1810_C02_001E", "Estimate!!Total")], (runOnce mo2 fo2 env stateW).2))) :=
  ⟨rfl, rfl,
   claim_C4 moW initState stateW "S1810" [("S1810_C02_001E", "Estimate!!Total")] rfl rfl⟩

/-- C6 counterexample: the group-metadata call (app.py line 62) is issued
with NO timeout argument, refuting the claim that every HTTP call carries
the fixed 20-unit timeout; the request is actually issued (it appears in
the request trace) on a cold cache. -/
theorem claim_C6_counterexample :
    (get_labels moNetErr initState "S1810").2.requestLog = [metaRequest "S1810"] ∧
    (metaRequest "S1810").timeout = none ∧
    (metaRequest "S1810").timeout ≠ some 20 := by
  refine ⟨rfl, rfl, by simp [metaRequest]⟩

/-- C6 amended: every data-pull HTTP request carries the fixed `timeout=20`
and no invocation issues more than one request (no retry); the group-metadata
request is issued with no timeout at all, also at most once per call. -/
theorem claim_C6_amended (fo : String → FetchOutcome) (mo : String → MetaOutcome)
    (s : NetState) (url group_id : String) :
    (dataRequest url).timeout = some 20 ∧
    ((fetch fo s url).2.requestLog = s.requestLog ∨
      (fetch fo s url).2.requestLog = s.requestLog ++ [dataRequest url]) ∧
    (metaRequest group_id).timeout = none ∧
    ((get_labels mo s group_id).2.requestLog = s.requestLog ∨
      (get_labels mo s group_id).2.requestLog = s.requestLog ++ [metaRequest group_id]) := by
  refine ⟨rfl, ?_, rfl, (get_labels_state mo s group_id).2.2.1⟩
  rw [fetch_requestLog]
  by_cases h : (alookup s.fetchCache url).isSome = true
  · left
    simp [h]
  · right
    simp [h]

/-- C7 counterexample: a metadata response with a failing HTTP status (500)
but a well-formed body makes `get_labels` return a mapping successfully —
the status is never checked — refuting the claim that a non-success HTTP
status causes a propagating failure. -/
theorem claim_C7_counterexample :
    metaResp500.status = 500 ∧
    (get_labels (fun _ => MetaOutcome.resp metaResp500) initState "S1810").1
      = .ok [("S1810_C02_001E", "Estimate!!Total")] := by
  exact ⟨rfl, rfl⟩

/-- C7 amended: when the metadata request fails at transport level or its
body has unexpected structure (no `variables` object, or an entry without a
`label`), `get_labels` fails with an error that propagates — it never
returns or caches a fallback mapping — and a detailed pull needing that
group aborts; a non-success HTTP status alone does not cause failure. -/
theorem claim_C7_amended (mo : String → MetaOutcome) (s : NetState) (group_id : String)
    (hun : alookup s.labelsCache group_id = none)
    (hbad : metaBad (mo group_id) = true) :
    (∃ e, (get_labels mo s group_id).1 = .error e) ∧
    (get_labels mo s group_id).2.labelsCache = s.labelsCache ∧
    (∀ (fo : String → FetchOutcome) (indicator geo frag univ : String) (wa ws wr : Bool),
      alookup DETAILED indicator = some (group_id, (frag, univ)) →
      ∃ e, (pull_detailed mo fo s indicator geo wa ws wr).1 = .error (.metaFailed e)) := by
  have hfail : ∃ e, get_labels mo s group_id
      = (.error e, {s with requestLog := s.requestLog ++ [metaRequest group_id]}) := by
    cases hmo : mo group_id with
    | netError =>
      refine ⟨.network, ?_⟩
      simp [get_labels, hun, hmo]
    | resp r =>
      cases hv : r.varsObj with
      | none =>
        refine ⟨.badBody, ?_⟩
        simp [get_labels, hun, hmo, parse_labels, hv]
      | some vars =>
        have hany : vars.any (fun kv => kv.2.isNone) = true := by
          have hb := hbad
          rw [hmo] at hb
          simpa [metaBad, hv] using hb
        obtain ⟨e, he⟩ := extractLabels_err vars hany
        refine ⟨e, ?_⟩
        simp [get_labels, hun, hmo, parse_labels, hv, he]
  obtain ⟨e0, he0⟩ := hfail
  refine ⟨⟨e0, by rw [he0]⟩, by rw [he0], ?_⟩
  intro fo indicator geo frag univ wa ws wr hdet
  refine ⟨e0, ?_⟩
  simp [pull_detailed, hdet, he0]

/-- Witness for the amended C7: unparseable metadata body for the
Disability group aborts the detailed pull. -/
theorem claim_C7_amended_witness :
    (alookup initState.labelsCache "S1810" = none ∧ metaBad (moBad "S1810") = true) ∧
    ((∃ e, (get_labels moBad initState "S1810").1 = .error e) ∧
      (get_labels moBad initState "S1810").2.labelsCache = initState.labelsCache ∧
      (∀ (fo : String → FetchOutcome) (indicator geo frag univ : String) (wa ws wr : Bool),
        alookup DETAILED indicator = some ("S1810", (frag, univ)) →
        ∃ e, (pull_detailed moBad fo initState indicator geo wa ws wr).1
          = .error (.metaFailed e))) :=
  ⟨⟨rfl, rfl⟩, claim_C7_amended moBad initState "S1810" rfl rfl⟩

/-- C8 counterexample: with a warm response cache (a second identical run),
the URL Log at the end of the run lists the pull URL even though NO actual
HTTP request was issued during that run (the request trace is unchanged),
refuting the claim that the log equals the URLs actually issued. -/
theorem claim_C8_counterexample :
    ((runOnce moNetErr foIncome envIncome
        (runOnce moNetErr foIncome envIncome initState).2).2.urlHits
      = [simpleUrl "S1901_C01_012E" "subject" "for=county:053&in=state:53"]) ∧
    ((runOnce moNetErr foIncome envIncome
        (runOnce moNetErr foIncome envIncome initState).2).2.requestLog
      = (runOnce moNetErr foIncome envIncome initState).2.requestLog) := by
  exact ⟨rfl, rfl⟩

/-- C8 amended: the URL Log is cleared at the start of each run (the result
does not depend on the prior log); each data-pull entry point appends its
exact request URL before invoking the cached fetch — `pull_simple` its
simple URL, `pull_detailed` the detailed URL over the metadata-selected
variables — even when the fetch fails or is served from the response cache;
metadata requests are never logged; at the end of the run the log is
exactly the ordered sequence of data-pull request URLs attempted during
that run; and an actual HTTP data request is issued exactly when the URL
misses the response cache. -/
theorem claim_C8_amended (mo : String → MetaOutcome) (fo : String → FetchOutcome)
    (env : Env) (s : NetState) (l : List String)
    (url code dataset geo indicator group_id : String) (wa ws wr : Bool) :
    runOnce mo fo env {s with urlHits := l} = runOnce mo fo env {s with urlHits := []} ∧
    (pull_simple fo s code dataset geo).2.urlHits
      = s.urlHits ++ [simpleUrl code dataset geo] ∧
    (∀ (gfu : String × String × String) (labels : List (String × String)) (s1 : NetState),
      alookup DETAILED indicator = some gfu →
      get_labels mo s gfu.1 = (.ok labels, s1) →
      (pull_detailed mo fo s indicator geo wa ws wr).2.urlHits
        = s.urlHits ++ [detailedUrl (select_vars labels gfu.1 gfu.2.1 wa ws wr) geo]) ∧
    (pullFor mo fo geo wa ws wr s indicator).2.urlHits
      = s.urlHits ++ (pullUrl mo geo wa ws wr s indicator).toList ∧
    (get_labels mo s group_id).2.urlHits = s.urlHits ∧
    (runOnce mo fo env s).2.urlHits
      = (match geo_clause env.geo_level env.zcta_list with
         | none => []
         | some g => attemptedUrls mo fo g env.want_age env.want_sex env.want_race
             {s with urlHits := []} env.chosen) ∧
    (fetch fo s url).2.requestLog
      = s.requestLog ++
        (if (alookup s.fetchCache url).isSome then [] else [dataRequest url]) :=
  ⟨rfl, (pull_simple_state fo s code dataset geo).1,
   fun gfu labels s1 hd hg =>
     pull_detailed_url mo fo s indicator geo wa ws wr gfu labels s1 hd hg,
   pullFor_url mo fo geo wa ws wr s indicator,
   (get_labels_state mo s group_id).1,
   runOnce_urls mo fo env s,
   fetch_requestLog fo s url⟩

/-- Witness for the amended C8: the detailed pull of "Disability (%)" with
the age breakdown appends exactly its detailed request URL. -/
theorem claim_C8_amended_witness :
    (alookup DETAILED "Disability (%)" = some ("S1810", ("With a disability", "civilian")) ∧
      get_labels moW initState "S1810"
        = (.ok [("S1810_C02_001E", "Estimate!!Total")], stateW)) ∧
    (pull_detailed moW foNetErr initState "Disability (%)" "for=county:053&in=state:53"
        true false false).2.urlHits
      = initState.urlHits ++
        [detailedUrl (select_vars [("S1810_C02_001E", "Estimate!!Total")] "S1810"
            "With a disability" true false false) "for=county:053&in=state:53"] :=
  ⟨⟨rfl, rfl⟩,
   (claim_C8_amended moW foNetErr envIncome initState [] "u" "c" "d"
       "for=county:053&in=state:53" "Disability (%)" "S1810" true false false).2.2.1
     ("S1810", ("With a disability", "civilian"))
     [("S1810_C02_001E", "Estimate!!Total")] stateW rfl rfl⟩

/-- C9: the detailed fetch path is taken iff the indicator is
detailed-capable and at least one breakdown flag is set; with no flag set,
every indicator — detailed-capable or not — goes through the simple path
with its configured (variable_code, dataset) pair. -/
theorem claim_C9 (indicator : String) (wa ws wr : Bool) :
    (usesDetailed indicator wa ws wr = true ↔
      ((alookup DETAILED indicator).isSome = true ∧
        (wa = true ∨ ws = true ∨ wr = true))) ∧
    (wa = false → ws = false → wr = false →
      ∀ (mo : String → MetaOutcome) (fo : String → FetchOutcome) (geo : String)
        (s : NetState) (code dataset : String),
        alookup BASE_VARS indicator = some (code, dataset) →
        pullFor mo fo geo wa ws wr s indicator = pull_simple fo s code dataset geo) := by
  constructor
  · simp [usesDetailed, Bool.and_eq_true, Bool.or_eq_true, or_assoc]
  · intro ha hs hr mo fo geo s code dataset hb
    subst ha
    subst hs
    subst hr
    have hud : usesDetailed indicator false false false = false := by
      simp [usesDetailed]
    simp [pullFor, hud, hb]

/-- Witness for C9: the detailed-capable "Disability (%)" indicator is
fetched via the simple path when no breakdown flag is set. -/
theorem claim_C9_witness :
    alookup BASE_VARS "Disability (%)" = some ("S1810_C02_001E", "subject") ∧
    pullFor moNetErr foNetErr "for=county:053&in=state:53" false false false initState
        "Disability (%)"
      = pull_simple foNetErr initState "S1810_C02_001E" "subject"
          "for=county:053&in=state:53" :=
  ⟨by decide,
   (claim_C9 "Disability (%)" false false false).2 rfl rfl rfl moNetErr foNetErr
     "for=county:053&in=state:53" initState "S1810_C02_001E" "subject" (by decide)⟩

/-- C10: at the two fixed geography levels the clause is a constant — it does
not read the ZCTA session input — and it is never the Empty sentinel. -/
theorem claim_C10 (z1 z2 : String) :
    geo_clause "County (Pierce)" z1 = geo_clause "County (Pierce)" z2 ∧
    geo_clause "Tract (Pierce)" z1 = geo_clause "Tract (Pierce)" z2 ∧
    geo_clause "County (Pierce)" z1 ≠ none ∧
    geo_clause "Tract (Pierce)" z1 ≠ none := by
  have hc : ∀ z : String, geo_clause "County (Pierce)" z
      = some ("for=county:" ++ PIERCE ++ "&in=state:" ++ STATE) := fun _ => rfl
  have ht : ∀ z : String, geo_clause "Tract (Pierce)" z
      = some ("for=tract:*&in=state:" ++ STATE ++ "%20county:" ++ PIERCE) := fun _ => rfl
  refine ⟨by rw [hc, hc], by rw [ht, ht], by rw [hc]; exact Option.noConfusion,
    by rw [ht]; exact Option.noConfusion⟩

end CensusAPIBaker
